import Mathlib

/-!
Verification of the ScriptureNames repository (text_retriever.py,
names_extractor.py, pipeline.py) against its natural-language
specification.  The Python source is shallowly embedded below:
strings are lists of characters, the SQLite database is a record of
row lists, the generative service is an abstract function parameter,
the on-disk JSON name store is an explicit state value, and Python
exceptions are an `Except` error type.
-/

namespace ScriptureNames

/-! ### Character-level machinery for the regular expressions used by
`get_texts_from_chapter` (text_retriever.py, lines 106-135). -/

/-- Python regex word character (`\w`), restricted to the ASCII
alphanumerics and underscore that occur in the corpus text. -/
def isWordChar (c : Char) : Bool := c.isAlphanum || c = '_'

/-- Greedily consume a run of decimal digits (`\d+` with the usual
possessive behaviour, which agrees with backtracking here because a
shorter digit run is always followed by a digit, never by a word
boundary). Returns (digits, rest) with digits ++ rest = input. -/
def takeDigits : List Char → List Char × List Char
  | [] => ([], [])
  | c :: cs =>
    if c.isDigit then
      let p := takeDigits cs
      (c :: p.1, p.2)
    else ([], c :: cs)

/-- The trailing `\b` of the marker pattern: the match ends in a digit,
so there is a word boundary iff the next character is absent or is not
a word character. -/
def trailingBoundary : List Char → Bool
  | [] => true
  | c :: _ => !isWordChar c

/-- Attempt to match the pattern `\b(TEXT \d+|TEXTS \d+-\d+)\b` of
text_retriever.py line 127 at the start of `cs`.  `prevWord` records
whether the character immediately before `cs` is a word character (at
the start of the string it is `false`); since both alternatives begin
with the word character `T`, the leading `\b` holds iff `prevWord` is
false.  Returns `some (delimiter, rest)` on a match.  The two
alternatives are distinguished by their fifth character (a space
versus `S`), so the alternation order of the Python pattern is
immaterial. -/
def matchMarker (prevWord : Bool) (cs : List Char) : Option (List Char × List Char) :=
  if prevWord then none
  else
    match cs with
    | 'T' :: 'E' :: 'X' :: 'T' :: ' ' :: rest =>
      match takeDigits rest with
      | ([], _) => none
      | (d :: ds, rest1) =>
        if trailingBoundary rest1 then
          some ('T' :: 'E' :: 'X' :: 'T' :: ' ' :: (d :: ds), rest1)
        else none
    | 'T' :: 'E' :: 'X' :: 'T' :: 'S' :: ' ' :: rest =>
      match takeDigits rest with
      | ([], _) => none
      | (d :: ds, rest1) =>
        match rest1 with
        | '-' :: rest2 =>
          match takeDigits rest2 with
          | ([], _) => none
          | (e :: es, rest3) =>
            if trailingBoundary rest3 then
              some ('T' :: 'E' :: 'X' :: 'T' :: 'S' :: ' ' :: ((d :: ds) ++ '-' :: (e :: es)), rest3)
            else none
        | _ => none
    | _ => none

/-- Scanner for `re.split(r'\b(TEXT \d+|TEXTS \d+-\d+)\b', s)`.
Python's `re.split` scans left to right for the leftmost match; with a
capturing group the matched delimiter is emitted as its own element of
the result, between the piece before it and the piece after it, and
scanning resumes immediately after the match.  `skip` counts delimiter
characters still to be stepped over after a match was emitted (every
match is at least six characters long and ends in a digit, hence
`prevWord` is true when the skip ends); `acc` accumulates the current
non-delimiter piece in reverse. -/
def splitGo : Nat → Bool → List Char → List Char → List (List Char)
  | _ + 1, _, acc, [] => [acc.reverse]
  | skip + 1, _, acc, _ :: cs => splitGo skip true acc cs
  | 0, _, acc, [] => [acc.reverse]
  | 0, prevWord, acc, c :: cs =>
    match matchMarker prevWord (c :: cs) with
    | some (m, _) => acc.reverse :: m :: splitGo (m.length - 1) true [] cs
    | none => splitGo 0 (isWordChar c) (c :: acc) cs

/-- `re.split(r'\b(TEXT \d+|TEXTS \d+-\d+)\b', s)` from
text_retriever.py line 127. -/
def pyReSplit (cs : List Char) : List (List Char) := splitGo 0 false [] cs

/-- Length of a markup tag body: number of characters up to and
including the first `>`, or `none` if a newline or the end of the
string comes first (Python `.` does not match a newline, and `.*?` is
non-greedy, so the nearest `>` closes the tag). -/
def tagLen : List Char → Option Nat
  | [] => none
  | c :: cs =>
    if c = '>' then some 1
    else if c = '\n' then none
    else (tagLen cs).map (· + 1)

/-- Scanner for `re.sub(r'<.*?>', ' ', text)` from text_retriever.py
line 109: each `<...>` tag is replaced by a single space; a `<` with no
closing `>` on the same line is kept.  `skip` counts tag characters
still to be stepped over after a replacement. -/
def rmGo : Nat → List Char → List Char
  | _ + 1, [] => []
  | k + 1, _ :: cs => rmGo k cs
  | 0, [] => []
  | 0, c :: cs =>
    if c = '<' then
      match tagLen cs with
      | some k => ' ' :: rmGo k cs
      | none => c :: rmGo 0 cs
    else c :: rmGo 0 cs

/-- `re.sub(r'<.*?>', ' ', text)`: remove all text between `<` and `>`
brackets, replacing each tag with a space. -/
def removeMarkup (cs : List Char) : List Char := rmGo 0 cs

/-- Python `str.strip` whitespace test (ASCII whitespace as used by
the corpus text). -/
def pyIsSpace (c : Char) : Bool :=
  c = ' ' || c = '\t' || c = '\n' || c = '\r' || c = '\x0b' || c = '\x0c'

/-- Python `piece.strip()`: drop whitespace from both ends. -/
def pyStrip (cs : List Char) : List Char :=
  ((cs.dropWhile pyIsSpace).reverse.dropWhile pyIsSpace).reverse

/-- Python `piece.strip().startswith(('TEXT ', 'TEXTS '))` from
text_retriever.py line 135. -/
def startsWithMarkerWord (cs : List Char) : Bool :=
  List.isPrefixOf "TEXT ".data cs || List.isPrefixOf "TEXTS ".data cs

/-- The pure text-processing part of `get_texts_from_chapter`
(text_retriever.py lines 101-143): strip markup from each retrieved
row, join the rows with single spaces, split at the verse-marker
regex, then keep the stripped pieces that start with `TEXT ` or
`TEXTS `. -/
def get_texts_pieces (rows : List (List Char)) : List (List Char) :=
  let formatted_texts := rows.map removeMarkup
  let concatenated_text := List.intercalate [' '] formatted_texts
  let split_texts := pyReSplit concatenated_text
  (split_texts.filter (fun piece => startsWithMarkerWord (pyStrip piece))).map pyStrip

/-! ### Python exceptions and the database model (text_retriever.py). -/

/-- The Python exception classes that matter to this program:
`ValueError` (raised by `get_texts_from_chapter` and the only class
caught by the driver's `except ValueError`), `FileNotFoundError`
(raised by `open` on a missing store file), and any other exception
(JSON decode errors, generative-service and schema-validation
failures, ...). -/
inductive PyError where
  | valueError (msg : String)
  | fileNotFoundError (msg : String)
  | otherError (msg : String)
deriving DecidableEq, Repr

/-- One row of the chapter catalog produced by `list_all_sb_chapters`
(text_retriever.py lines 22-33): the parent canto title, the chapter
title, the record id of the chapter's first text (`child.record`) and
of its last text (`child.next_sibling`). -/
structure ContentRow where
  parentTitle : List Char
  title : List Char
  record : Int
  nextSibling : Int
deriving DecidableEq, Repr

/-- One row of the `texts` table: a record id and the markup-laden
plain text. -/
structure TextRow where
  recid : Int
  plain : List Char
deriving DecidableEq, Repr

/-- The external SQLite database, abstracted to the two query results
the program reads: `chapters` is the catalog returned by the
`list_all_sb_chapters` SELECT (in query-result order), and `texts` is
the `texts` table (in table order, as returned by an unordered
SELECT). -/
structure SBDatabase where
  chapters : List ContentRow
  texts : List TextRow

/-- `f"SB {canto}.{chapter}:"` from text_retriever.py line 74. -/
def canto_chapter (canto chapter : Nat) : String :=
  "SB " ++ toString canto ++ "." ++ toString chapter ++ ":"

/-- Python substring containment (`canto_chapter in chapter_set[1]`,
text_retriever.py line 83): the pattern occurs contiguously somewhere
in the string. -/
def containsSub (pat : List Char) : List Char → Bool
  | [] => List.isPrefixOf pat []
  | c :: cs => List.isPrefixOf pat (c :: cs) || containsSub pat cs

/-- The verse-text range query of text_retriever.py lines 95-99:
`SELECT plain FROM texts WHERE recid >= first AND recid <= last`. -/
def chapterTextRows (texts : List TextRow) (first last : Int) : List (List Char) :=
  (texts.filter (fun t => decide (first ≤ t.recid) && decide (t.recid ≤ last))).map (·.plain)

/-- `get_texts_from_chapter` (text_retriever.py lines 53-147): walk
the chapter catalog in order, and for the first row whose title
contains `"SB canto.chapter:"` as a substring (Python `in`), query the
verse rows of its record span and return the processed pieces; if no
row matches, raise `ValueError`. -/
def get_texts_from_chapter (db : SBDatabase) (canto chapter : Nat) :
    Except PyError (List (List Char)) :=
  match db.chapters.find? (fun r => containsSub (canto_chapter canto chapter).data r.title) with
  | some chapter_set =>
    .ok (get_texts_pieces (chapterTextRows db.texts chapter_set.record chapter_set.nextSibling))
  | none => .error (.valueError (canto_chapter canto chapter ++ " not found in SB."))

/-! ### The names extractor (names_extractor.py). -/

/-- The `AugmentedSastricName` pydantic model (names_extractor.py
lines 15-24). -/
structure NameRecord where
  name : String
  definition : String
  context : String
  references : List String
  category : String
  gender : String
deriving DecidableEq, Repr

/-- The state of the per-chapter JSON name store file
`sb_canto{c}_chapter{ch}_names.json`: missing, unreadable/malformed,
or holding a well-formed list of records. -/
inductive StoreFile where
  | missing
  | corrupt
  | good (data : List NameRecord)
deriving DecidableEq, Repr

/-- Opening and JSON-decoding the store file, then reading
`item['name']` of every item (names_extractor.py lines 39-41): a
missing file raises `FileNotFoundError`, a malformed file raises some
other exception. -/
def readNamesFile : StoreFile → Except PyError (List String)
  | .missing => .error (.fileNotFoundError "names json file not found")
  | .corrupt => .error (.otherError "error loading existing names")
  | .good data => .ok (data.map (·.name))

/-- `load_existing_names` (names_extractor.py lines 28-49): return the
stored name strings; on `FileNotFoundError` warn and return `[]`; on
any other exception (`except Exception`) log and return `[]`. -/
def load_existing_names (json_file : StoreFile) : List String :=
  match readNamesFile json_file with
  | .ok existing_names => existing_names
  | .error (.fileNotFoundError _) => []
  | .error _ => []

/-- The generative-service capability (the `client.models
.generate_content` calls of names_extractor.py lines 167-175 and
202-210), abstracted: round 1 maps the first prompt to a validated
record list or an error; round 2 maps the replayed conversation (first
prompt, round 1's validated response content, second prompt) to a
validated record list or an error. -/
structure GenSvc where
  round1 : String → Except PyError (List NameRecord)
  round2 : String → List NameRecord → String → Except PyError (List NameRecord)

/-- The exclusion block interpolated into the prompt when previously
found names exist (names_extractor.py lines 94-100).  The literal
instruction text is abbreviated; what matters is that it enumerates
exactly the loaded names. -/
def exclusionText (existing_names : List String) : String :=
  if existing_names = [] then ""
  else
    "IMPORTANT: DO NOT include any of the following names that have already been found: "
      ++ String.intercalate ", " existing_names
      ++ " Please find ONLY NEW names that are not in the above list."

/-- The task prompt `command` (names_extractor.py lines 106-152), with
its two interpolation points; the long naming-criteria policy text is
opaque to every claim and abbreviated here. -/
def commandText (source_ref : String) (excl : String) : String :=
  "You are a Sanskrit expert interested in identifying beautiful names. "
    ++ "The above input comes from the following reference: " ++ source_ref ++ ". "
    ++ excl
    ++ " The following is the criteria for the names: [naming criteria policy]. "
    ++ "Your output must include the name, definition, context, references, category, AND the gender."

/-- `first_prompt = f"{source_str} \n\n {command}"` (line 154). -/
def firstPrompt (source_str source_ref : String) (exclude_names_file : Option StoreFile) : String :=
  let existing_names :=
    match exclude_names_file with
    | some f => load_existing_names f
    | none => []
  source_str ++ " \n\n " ++ commandText source_ref (exclusionText existing_names)

/-- The follow-up prompt of round 2 (names_extractor.py lines
181-188), abbreviated with its interpolation point. -/
def secondPromptText (source_ref : String) : String :=
  "The above is the first response. Now, please continue to find more names from the same source text, "
    ++ source_ref ++ ", that you have not already found."

/-- `extract_names` (names_extractor.py lines 53-219): load the
exclusion names from the store file (if a file was given), build the
first prompt, obtain round 1's response, replay the conversation with
the follow-up prompt for round 2, and return round 2's parsed records
only.  A service failure in either round propagates. -/
def extract_names (svc : GenSvc) (source_str source_ref : String)
    (exclude_names_file : Option StoreFile) : Except PyError (List NameRecord) :=
  let fp := firstPrompt source_str source_ref exclude_names_file
  match svc.round1 fp with
  | .error e => .error e
  | .ok model_content_for_history =>
    match svc.round2 fp model_content_for_history (secondPromptText source_ref) with
    | .error e => .error e
    | .ok found_names => .ok found_names

/-- `extract_names_to_json` (names_extractor.py lines 223-253):
read the existing store content (an empty list if the file is missing
or its JSON is malformed), extend it with the new records, and write
the whole sequence back. -/
def extract_names_to_json (store : StoreFile) (found_names : List NameRecord) : StoreFile :=
  let existing_data :=
    match store with
    | .good data => data
    | .missing => []
    | .corrupt => []
  .good (existing_data ++ found_names)

/-! ### The pagination pipeline and driver (pipeline.py). -/

/-- Instrumentation record for one iteration of the
`get_names_from_chapter` loop: the exclusion names loaded from the
store during this batch's `extract_names` call, the slice
`texts[start_index : start_index + step]` fed to it, and the records
it returned. -/
structure BatchTrace where
  exclusions : List String
  slice : List (List Char)
  found : List NameRecord
deriving DecidableEq, Repr

/-- `m.ceil(len(texts) / 20)` from pipeline.py line 9 (exact for every
list length realizable in memory). -/
def ceil20 (n : Nat) : Nat := (n + 19) / 20

/-- The `while curr_iter < max_iter` loop of `get_names_from_chapter`
(pipeline.py lines 13-30), with `remaining = max_iter - curr_iter`
counting the iterations still to run.  Each iteration slices
`texts[20*curr_iter : 20*curr_iter + step]` with
`step = min(20, len(texts) - 20*curr_iter)`, joins the slice with
single spaces, calls `extract_names` against the current store file,
appends the found records to the store via `extract_names_to_json`,
and advances.  The returned trace lists the batches in processing
order. -/
def namesLoop (svc : GenSvc) (source_ref : String) (texts : List (List Char)) :
    Nat → Nat → StoreFile → Except PyError (StoreFile × List BatchTrace)
  | 0, _, store => .ok (store, [])
  | remaining + 1, curr_iter, store =>
    let start_index := 20 * curr_iter
    let step := min 20 (texts.length - start_index)
    let slice := (texts.drop start_index).take step
    let source_str := String.mk (List.intercalate [' '] slice)
    match extract_names svc source_str source_ref (some store) with
    | .error e => .error e
    | .ok found_names =>
      match namesLoop svc source_ref texts remaining (curr_iter + 1)
          (extract_names_to_json store found_names) with
      | .error e => .error e
      | .ok (final_store, traces) =>
        .ok (final_store, ⟨load_existing_names store, slice, found_names⟩ :: traces)

/-- `f"Srimad Bhagavatam, Canto {canto}, Chapter {chapter}"`
(pipeline.py line 6). -/
def sourceRef (canto chapter : Nat) : String :=
  "Srimad Bhagavatam, Canto " ++ toString canto ++ ", Chapter " ++ toString chapter

/-- `get_names_from_chapter` (pipeline.py lines 3-30): retrieve the
chapter's verse pieces (a `ValueError` from the retriever propagates),
then run the batching loop over the store file
`sb_canto{canto}_chapter{chapter}_names.json`, whose state is threaded
explicitly. -/
def get_names_from_chapter (svc : GenSvc) (db : SBDatabase) (canto chapter : Nat)
    (store : StoreFile) : Except PyError (StoreFile × List BatchTrace) :=
  match get_texts_from_chapter db canto chapter with
  | .error e => .error e
  | .ok texts => namesLoop svc (sourceRef canto chapter) texts (ceil20 texts.length) 0 store

/-- One step of the `get_names_from_sb` driver loop (pipeline.py lines
32-39), parameterized by what running a chapter does: on success the
chapter advances; on `ValueError` (the `except ValueError` clause) the
canto advances and the chapter resets to 1; any other exception is not
caught and propagates. -/
def get_names_from_sb_step (runChapter : Nat → Nat → Except PyError Unit)
    (canto chapter : Nat) : Except PyError (Nat × Nat) :=
  match runChapter canto chapter with
  | .ok _ => .ok (canto, chapter + 1)
  | .error (.valueError _) => .ok (canto + 1, 1)
  | .error e => .error e

/-! ### Concrete fixtures used by witnesses and counterexamples. -/

/-- The previously stored record sequence in the sense of the spec's
Dedup Store contract: the stored sequence, or the empty sequence if
the store file is missing or corrupt. -/
def storedSeq : StoreFile → List NameRecord
  | .good data => data
  | .missing => []
  | .corrupt => []

/-- A concrete name record named `"A"`. -/
def recA : NameRecord := ⟨"A", "def", "ctx", [], "cat", "Male"⟩

/-- A concrete name record named `"B"`. -/
def recB : NameRecord := ⟨"B", "def", "ctx", [], "cat", "Female"⟩

/-- A concrete name record named `"C"`. -/
def recC : NameRecord := ⟨"C", "def", "ctx", [], "cat", "Neutral"⟩

/-- A stub generative service: round 1 finds nothing, round 2 always
returns the single record `recA`. -/
def svcA : GenSvc := ⟨fun _ => .ok [], fun _ _ _ => .ok [recA]⟩

/-- A stub generative service returning the fixed record set `[recB]`
in round 1 and `[recC]` in round 2. -/
def svcBC : GenSvc := ⟨fun _ => .ok [recB], fun _ _ _ => .ok [recC]⟩

/-- Twenty-one one-character verse units: two batches (20 + 1). -/
def texts21 : List (List Char) := List.replicate 21 ['a']

/-- The batch trace produced by running the pipeline loop over
`texts21` with service `svcA` and an initially missing store. -/
def tsA : List BatchTrace :=
  [⟨[], List.replicate 20 ['a'], [recA]⟩, ⟨["A"], [['a']], [recA]⟩]

/-- A chapter-run stub that fails with a non-`ValueError` exception
(a batch-extraction failure). -/
def rcFail : Nat → Nat → Except PyError Unit :=
  fun _ _ => .error (.otherError "malformed extraction response")

/-- A chapter-run stub that fails with `ValueError` (chapter not
found). -/
def rcNotFound : Nat → Nat → Except PyError Unit :=
  fun _ _ => .error (.valueError "SB 13.1: not found in SB.")

/-- A catalog row that does not match `"SB 5.2:"`. -/
def rowN : ContentRow := ⟨"Canto 5".data, "SB 5.1: Other".data, 50, 60⟩

/-- A catalog row whose title contains `"SB 5.2:"`. -/
def rowM1 : ContentRow := ⟨"Canto 5".data, "SB 5.2: First".data, 100, 101⟩

/-- A second catalog row whose title also contains `"SB 5.2:"`
(a uniqueness violation in the catalog). -/
def rowM2 : ContentRow := ⟨"Canto 5".data, "SB 5.2: Duplicate".data, 200, 201⟩

/-- A concrete verse-text table. -/
def textsW : List TextRow :=
  [⟨100, "Intro <b>TEXT 1</b> alpha".data⟩, ⟨101, "TEXT 2 beta".data⟩]

/-- A database with a single chapter spanning records 100-101 whose
rows carry verse markers with bodies. -/
def dbBug : SBDatabase := ⟨[rowM1], textsW⟩

/-! ### Helper lemmas. -/

/-- The pure slicing performed by the pipeline loop: the slice of
iteration `k`, then the slices of the remaining iterations. -/
def batchSlices (texts : List (List Char)) : Nat → Nat → List (List (List Char))
  | 0, _ => []
  | R + 1, k =>
    (texts.drop (20 * k)).take (min 20 (texts.length - 20 * k))
      :: batchSlices texts R (k + 1)

/-! ### Claim theorems. -/

/-- `find?` returns the first element satisfying the predicate,
ignoring everything after it. -/
theorem find?_first_of_mem {α : Type} (p : α → Bool) (pre : List α) (r : α) (tl : List α)
    (hpre : ∀ x ∈ pre, p x = false) (hr : p r = true) :
    List.find? p (pre ++ r :: tl) = some r := by
  induction pre with
  | nil => simpa using List.find?_cons_of_pos tl hr
  | cons a as ih =>
    rw [List.cons_append, List.find?_cons_of_neg _ (by simp [hpre a (by simp)])]
    exact ih (fun x hx => hpre x (List.mem_cons_of_mem a hx))

/-- C7: `get_texts_from_chapter` fails with `ValueError` exactly when
no row of the chapter catalog has a title containing the literal
substring `"SB canto.chapter:"`; whenever some row matches, it
returns normally. -/
theorem c7_chapter_not_found_iff (db : SBDatabase) (canto chapter : Nat) :
    (get_texts_from_chapter db canto chapter
        = .error (.valueError (canto_chapter canto chapter ++ " not found in SB."))
      ↔ ∀ r ∈ db.chapters, containsSub (canto_chapter canto chapter).data r.title = false)
      ∧ ((∃ r ∈ db.chapters, containsSub (canto_chapter canto chapter).data r.title = true) →
          ∃ pieces, get_texts_from_chapter db canto chapter = .ok pieces) := by
  unfold get_texts_from_chapter
  cases hfind : db.chapters.find?
      (fun r => containsSub (canto_chapter canto chapter).data r.title) with
  | none =>
    have hall := List.find?_eq_none.mp hfind
    constructor
    · constructor
      · intro _ r hr
        simpa using hall r hr
      · intro _
        rfl
    · rintro ⟨r, hr, hp⟩
      exact absurd hp (by simpa using hall r hr)
  | some chapter_set =>
    have hp := List.find?_some hfind
    have hmem := List.mem_of_find?_eq_some hfind
    constructor
    · constructor
      · intro h
        exact absurd h (by simp)
      · intro hall
        exact absurd hp (by simp [hall chapter_set hmem])
    · intro _
      exact ⟨_, rfl⟩

/-- C7 witness: the database `dbBug` contains a row matching
`"SB 5.2:"`, so the retrieval returns normally there. -/
theorem c7_witness : ∃ pieces, get_texts_from_chapter dbBug 5 2 = .ok pieces :=
  (c7_chapter_not_found_iff dbBug 5 2).2 ⟨rowM1, by decide, by decide⟩

/-- C10: when several catalog rows' titles contain the pattern,
`get_texts_from_chapter` silently uses the first matching row (in
query-result order) for the record span: the result is computed from
that row alone, every later row is ignored, and no error is
reported. -/
theorem c10_first_match_used (pre : List ContentRow) (r : ContentRow) (tl : List ContentRow)
    (texts : List TextRow) (canto chapter : Nat)
    (hpre : ∀ x ∈ pre, containsSub (canto_chapter canto chapter).data x.title = false)
    (hr : containsSub (canto_chapter canto chapter).data r.title = true) :
    get_texts_from_chapter ⟨pre ++ r :: tl, texts⟩ canto chapter
      = .ok (get_texts_pieces (chapterTextRows texts r.record r.nextSibling)) := by
  unfold get_texts_from_chapter
  rw [show (SBDatabase.mk (pre ++ r :: tl) texts).chapters = pre ++ r :: tl from rfl,
    find?_first_of_mem _ pre r tl hpre hr]

theorem length_batchSlices (texts : List (List Char)) :
    ∀ R k, (batchSlices texts R k).length = R := by
  intro R
  induction R with
  | zero => intro k; rfl
  | succ n ih => intro k; simp [batchSlices, ih]

theorem get_batchSlices (texts : List (List Char)) :
    ∀ R k i (hi : i < R),
      (batchSlices texts R k).get ⟨i, by rw [length_batchSlices]; exact hi⟩
        = (texts.drop (20 * (k + i))).take (min 20 (texts.length - 20 * (k + i))) := by
  intro R
  induction R with
  | zero => intro k i hi; exact absurd hi (Nat.not_lt_zero i)
  | succ n ih =>
    intro k i hi
    cases i with
    | zero => simp [batchSlices]
    | succ j =>
      have harith : k + 1 + j = k + (j + 1) := by omega
      have := ih (k + 1) j (by omega)
      rw [harith] at this
      simpa [batchSlices] using this

theorem take_min_self {α : Type} (l : List α) (m : Nat) :
    l.take (min m l.length) = l.take m := by
  rcases Nat.le_total m l.length with h | h
  · rw [Nat.min_eq_left h]
  · rw [Nat.min_eq_right h, List.take_length, List.take_of_length_le h]

theorem flatten_batchSlices (texts : List (List Char)) :
    ∀ R k, (batchSlices texts R k).flatten = (texts.drop (20 * k)).take (20 * R) := by
  intro R
  induction R with
  | zero => intro k; simp [batchSlices]
  | succ n ih =>
    intro k
    have hlen : texts.length - 20 * k = (texts.drop (20 * k)).length := by simp
    have hdrop : texts.drop (20 * (k + 1)) = (texts.drop (20 * k)).drop 20 := by
      rw [List.drop_drop, Nat.mul_add, Nat.mul_one]
    calc (batchSlices texts (n + 1) k).flatten
        = (texts.drop (20 * k)).take (min 20 (texts.length - 20 * k))
            ++ (batchSlices texts n (k + 1)).flatten := by
          simp [batchSlices]
      _ = (texts.drop (20 * k)).take 20 ++ ((texts.drop (20 * k)).drop 20).take (20 * n) := by
          rw [ih, hlen, take_min_self, hdrop]
      _ = (texts.drop (20 * k)).take (20 + 20 * n) := (List.take_add _ _ _).symm
      _ = (texts.drop (20 * k)).take (20 * (n + 1)) := by ring_nf

/-- Master characterization of a successful run of the pipeline loop:
the traced slices are exactly the arithmetic batch slices, and the
exclusion names of batch `i` are loaded from the store as left by the
appends of all earlier batches. -/
theorem namesLoop_ok_spec (svc : GenSvc) (source_ref : String) (texts : List (List Char)) :
    ∀ R k store st ts,
      namesLoop svc source_ref texts R k store = .ok (st, ts) →
      ts.map (fun t => t.slice) = batchSlices texts R k
        ∧ ∀ i (hi : i < ts.length),
            (ts.get ⟨i, hi⟩).exclusions
              = load_existing_names
                  (List.foldl extract_names_to_json store
                    ((ts.take i).map (fun t => t.found))) := by
  intro R
  induction R with
  | zero =>
    intro k store st ts h
    simp only [namesLoop, Except.ok.injEq, Prod.mk.injEq] at h
    obtain ⟨-, h2⟩ := h
    subst h2
    exact ⟨rfl, fun i hi => absurd hi (Nat.not_lt_zero i)⟩
  | succ n ih =>
    intro k store st ts h
    simp only [namesLoop] at h
    split at h
    · exact absurd h (by simp)
    next found_names hex =>
      split at h
      · exact absurd h (by simp)
      next final_store traces hrec =>
        simp only [Except.ok.injEq, Prod.mk.injEq] at h
        obtain ⟨-, h2⟩ := h
        subst h2
        obtain ⟨ihs, ihe⟩ := ih (k + 1) (extract_names_to_json store found_names)
          final_store traces hrec
        constructor
        · simp [batchSlices, ihs]
        · intro i hi
          cases i with
          | zero => rfl
          | succ j =>
            have hj : j < traces.length := by simpa using hi
            simpa [List.foldl_cons] using ihe j hj

/-- C10 witness: with two rows both matching `"SB 5.2:"` after one
non-matching row, the span of the earlier matching row (records
100-101) is used and the duplicate row (records 200-201) is
ignored. -/
theorem c10_witness :
    get_texts_from_chapter ⟨[rowN, rowM1, rowM2], textsW⟩ 5 2
      = .ok (get_texts_pieces (chapterTextRows textsW 100 101)) :=
  c10_first_match_used [rowN] rowM1 [rowM2] textsW 5 2 (by decide) (by decide)

/-- C8: `load_existing_names` called on a missing store file returns
the empty collection; called on an unreadable/malformed/corrupt store
file it likewise returns the empty collection; and every read error is
swallowed (no exception reaches the caller: whenever the underlying
read raises, the function returns `[]`). -/
theorem c8_load_exclusions_total :
    (∀ f e, readNamesFile f = .error e → load_existing_names f = [])
      ∧ load_existing_names .missing = []
      ∧ load_existing_names .corrupt = [] := by
  refine ⟨?_, rfl, rfl⟩
  intro f e h
  cases f with
  | missing => rfl
  | corrupt => rfl
  | good data => exact absurd h (by simp [readNamesFile])

/-- C8 witness: the missing-file read error is concretely swallowed. -/
theorem c8_witness : load_existing_names .missing = [] :=
  c8_load_exclusions_total.1 .missing (.fileNotFoundError "names json file not found") rfl

/-- C9: `extract_names_to_json` is read-modify-write: for every prior
store state and every new record sequence, the persisted sequence is
exactly the previously stored sequence (empty if the file was missing
or corrupt) concatenated with the new records in order, and no
deduplication happens: every record keeps its full multiplicity, so
exact duplicates are persisted. -/
theorem c9_append_read_modify_write (store : StoreFile) (found_names : List NameRecord) :
    extract_names_to_json store found_names = .good (storedSeq store ++ found_names)
      ∧ (∀ r : NameRecord,
          (storedSeq (extract_names_to_json store found_names)).count r
            = (storedSeq store).count r + found_names.count r) := by
  constructor
  · cases store <;> rfl
  · intro r
    cases store <;> simp [extract_names_to_json, storedSeq, List.count_append]

/-- C4: for every batch input and every pair of validated round-1 and
round-2 responses, `extract_names` returns exactly the parsed record
sequence of the round-2 response; the round-1 records enter only the
replayed conversation context and are never merged into the returned
value. -/
theorem c4_round2_only (svc : GenSvc) (source_str source_ref : String)
    (exclude_names_file : Option StoreFile) (r1 r2 : List NameRecord)
    (h1 : svc.round1 (firstPrompt source_str source_ref exclude_names_file) = .ok r1)
    (h2 : svc.round2 (firstPrompt source_str source_ref exclude_names_file) r1
            (secondPromptText source_ref) = .ok r2) :
    extract_names svc source_str source_ref exclude_names_file = .ok r2 := by
  simp only [extract_names, h1, h2]

/-- C4 witness: with a stub service returning `[recB]` in round 1 and
`[recC]` in round 2, the protocol returns exactly `[recC]`. -/
theorem c4_witness : extract_names svcBC "src" "ref" none = .ok [recC] :=
  c4_round2_only svcBC "src" "ref" none [recB] [recC] rfl rfl

/-- C3: the driver's `except ValueError` clause recovers a
`ValueError` (chapter not found) by advancing the canto and resetting
the chapter, and any other exception raised during a chapter run (for
example a batch-extraction failure) is not caught: it propagates out
of the driver step, and is never turned into a canto rollover. -/
theorem c3_driver_catches_only_value_error (runChapter : Nat → Nat → Except PyError Unit)
    (canto chapter : Nat) :
    (∀ msg, runChapter canto chapter = .error (.valueError msg) →
        get_names_from_sb_step runChapter canto chapter = .ok (canto + 1, 1))
      ∧ (∀ e, (∀ msg, e ≠ PyError.valueError msg) →
          runChapter canto chapter = .error e →
          get_names_from_sb_step runChapter canto chapter = .error e) := by
  constructor
  · intro msg h
    simp [get_names_from_sb_step, h]
  · intro e hne h
    cases e with
    | valueError m => exact absurd rfl (hne m)
    | fileNotFoundError m => simp [get_names_from_sb_step, h]
    | otherError m => simp [get_names_from_sb_step, h]

/-- C3 witness: a concrete extraction failure propagates unchanged,
while a concrete `ValueError` rolls the canto over. -/
theorem c3_witness :
    get_names_from_sb_step rcFail 1 1 = .error (.otherError "malformed extraction response")
      ∧ get_names_from_sb_step rcNotFound 5 2 = .ok (6, 1) :=
  ⟨(c3_driver_catches_only_value_error rcFail 1 1).2
      (.otherError "malformed extraction response") (fun _ h => PyError.noConfusion h) rfl,
   (c3_driver_catches_only_value_error rcNotFound 5 2).1 "SB 13.1: not found in SB." rfl⟩

/-- C5: a complete chapter run over `N` verse units performs exactly
`ceil(N/20)` batches, in order; batch `i` is the contiguous slice of
the verse list starting at index `20*i` of length
`min(20, N - 20*i)`; the batches flatten back to the whole verse list
(every unit in exactly one batch, none omitted, none duplicated); and
the last batch has size `N mod 20`, or 20 when 20 divides `N`. -/
theorem c5_batch_coverage (svc : GenSvc) (source_ref : String) (texts : List (List Char))
    (store st : StoreFile) (ts : List BatchTrace)
    (h : namesLoop svc source_ref texts (ceil20 texts.length) 0 store = .ok (st, ts))
    (hne : texts ≠ []) :
    ts.length = ceil20 texts.length
      ∧ (∀ i (hi : i < ts.length),
          (ts.get ⟨i, hi⟩).slice
            = (texts.drop (20 * i)).take (min 20 (texts.length - 20 * i)))
      ∧ (ts.map (fun t => t.slice)).flatten = texts
      ∧ (∀ i (hi : i < ts.length), i + 1 = ts.length →
          (ts.get ⟨i, hi⟩).slice.length
            = if texts.length % 20 = 0 then 20 else texts.length % 20) := by
  obtain ⟨hs, -⟩ := namesLoop_ok_spec svc source_ref texts (ceil20 texts.length) 0 store st ts h
  have hlen : ts.length = ceil20 texts.length := by
    have := congrArg List.length hs
    simpa [length_batchSlices] using this
  have hget : ∀ i (hi : i < ts.length),
      (ts.get ⟨i, hi⟩).slice
        = (texts.drop (20 * i)).take (min 20 (texts.length - 20 * i)) := by
    intro i hi
    have hi' : i < ceil20 texts.length := hlen ▸ hi
    have h1 : (ts.get ⟨i, hi⟩).slice
        = (List.map (fun t => t.slice) ts).get ⟨i, by simpa using hi⟩ := by simp
    have h2 : (List.map (fun t => t.slice) ts).get ⟨i, by simpa using hi⟩
        = (batchSlices texts (ceil20 texts.length) 0).get ⟨i, by
            rw [length_batchSlices]
            exact hi'⟩ := by
      simp only [List.get_eq_getElem]
      exact List.getElem_of_eq hs _
    have h3 := get_batchSlices texts (ceil20 texts.length) 0 i hi'
    rw [h1, h2, h3]
    simp
  refine ⟨hlen, hget, ?_, ?_⟩
  · rw [hs, flatten_batchSlices]
    simp only [Nat.mul_zero, List.drop_zero]
    apply List.take_of_length_le
    unfold ceil20
    omega
  · intro i hi hlast
    rw [hget i hi]
    have hpos : 0 < texts.length := List.length_pos.mpr hne
    have hceil : i + 1 = ceil20 texts.length := by rw [hlast, hlen]
    unfold ceil20 at hceil
    simp only [List.length_take, List.length_drop]
    split <;> omega

/-- C5 witness: 21 verse units with a stub service give two batches,
of sizes 20 and 1, flattening back to the verse list. -/
theorem c5_witness :
    tsA.length = ceil20 texts21.length
      ∧ (∀ i (hi : i < tsA.length),
          (tsA.get ⟨i, hi⟩).slice
            = (texts21.drop (20 * i)).take (min 20 (texts21.length - 20 * i)))
      ∧ (tsA.map (fun t => t.slice)).flatten = texts21
      ∧ (∀ i (hi : i < tsA.length), i + 1 = tsA.length →
          (tsA.get ⟨i, hi⟩).slice.length
            = if texts21.length % 20 = 0 then 20 else texts21.length % 20) :=
  c5_batch_coverage svcA "ref" texts21 .missing (.good [recA, recA]) tsA rfl (by decide)

theorem foldl_extract_names_to_json (store : StoreFile) :
    ∀ l : List (List NameRecord), l ≠ [] →
      List.foldl extract_names_to_json store l = .good (storedSeq store ++ l.flatten) := by
  intro l
  induction l generalizing store with
  | nil => intro h; exact absurd rfl h
  | cons a as ih =>
    intro _
    cases as with
    | nil => cases store <;> simp [extract_names_to_json, storedSeq]
    | cons b bs =>
      rw [List.foldl_cons, ih (extract_names_to_json store a) (by simp)]
      cases store <;> simp [extract_names_to_json, storedSeq]

/-- C2 counterexample: running the pipeline loop over 21 verse units
with an initially missing store and a stub service whose round 2
always returns the record named `"A"`: batch 0 is extracted with an
empty exclusion set, its result is appended to the store, and batch 1
of the same run is then extracted with exclusion set `["A"]` — the
set loaded for batch 1 differs from the one loaded for batch 0, and
the record appended by the earlier batch IS excluded from the later
batch of the same run. -/
theorem c2_counterexample :
    namesLoop svcA "ref" texts21 (ceil20 texts21.length) 0 .missing
        = .ok (.good [recA, recA], tsA)
      ∧ (tsA.get ⟨0, by decide⟩).exclusions = []
      ∧ (tsA.get ⟨1, by decide⟩).exclusions = [recA.name]
      ∧ (tsA.get ⟨0, by decide⟩).exclusions ≠ (tsA.get ⟨1, by decide⟩).exclusions
      ∧ recA ∈ (tsA.get ⟨0, by decide⟩).found
      ∧ recA.name ∈ (tsA.get ⟨1, by decide⟩).exclusions :=
  ⟨rfl, rfl, rfl, by decide, by decide, by decide⟩

/-- C2 (amended): the exclusion store *filename* is fixed once per
chapter run, but the exclusion set itself is reloaded from the store
at the start of every batch's `extract_names` call; since each batch's
records are appended to that store before the next batch starts, batch
`i` is extracted with the names of the initial store contents plus all
records found by batches `0..i-1` of the same run — in particular
every record appended by an earlier batch is excluded from every later
batch of the same run. -/
theorem c2_exclusions_reloaded_per_batch (svc : GenSvc) (source_ref : String)
    (texts : List (List Char)) (R k : Nat) (store st : StoreFile) (ts : List BatchTrace)
    (h : namesLoop svc source_ref texts R k store = .ok (st, ts)) :
    (∀ i (hi : i < ts.length),
        (ts.get ⟨i, hi⟩).exclusions
          = load_existing_names
              (List.foldl extract_names_to_json store ((ts.take i).map (fun t => t.found))))
      ∧ (∀ i j (hi : i < ts.length) (hj : j < ts.length), j < i →
          ∀ r ∈ (ts.get ⟨j, hj⟩).found, r.name ∈ (ts.get ⟨i, hi⟩).exclusions) := by
  obtain ⟨-, hexcl⟩ := namesLoop_ok_spec svc source_ref texts R k store st ts h
  refine ⟨hexcl, ?_⟩
  intro i j hi hj hji r hr
  rw [hexcl i hi]
  have hne : (ts.take i).map (fun t => t.found) ≠ [] := by
    apply List.length_pos.mp
    simp only [List.length_map, List.length_take]
    omega
  rw [foldl_extract_names_to_json store _ hne]
  have hjtake : j < ((ts.take i).map (fun t => t.found)).length := by
    simp only [List.length_map, List.length_take]
    omega
  have hgetj : ((ts.take i).map (fun t => t.found)).get ⟨j, hjtake⟩
      = (ts.get ⟨j, hj⟩).found := by
    simp [List.getElem_take]
  have hmem : (ts.get ⟨j, hj⟩).found ∈ (ts.take i).map (fun t => t.found) := by
    rw [← hgetj]
    exact List.get_mem _ _ hjtake
  have hrmem : r ∈ ((ts.take i).map (fun t => t.found)).flatten :=
    List.mem_flatten.mpr ⟨_, hmem, hr⟩
  show r.name ∈ List.map (fun nr => nr.name) (storedSeq store ++ _)
  exact List.mem_map_of_mem _ (List.mem_append_right _ hrmem)

/-- C2 amended-claim witness: in the concrete two-batch run, batch 1's
exclusion set equals the names loaded from the store as left by batch
0's append, and the name of the record found by batch 0 is in batch
1's exclusion set. -/
theorem c2_witness :
    (tsA.get ⟨1, by decide⟩).exclusions
        = load_existing_names
            (List.foldl extract_names_to_json .missing
              ((tsA.take 1).map (fun t => t.found)))
      ∧ recA.name ∈ (tsA.get ⟨1, by decide⟩).exclusions :=
  ⟨(c2_exclusions_reloaded_per_batch svcA "ref" texts21 (ceil20 texts21.length) 0 .missing
        (.good [recA, recA]) tsA rfl).1 1 (by decide),
   (c2_exclusions_reloaded_per_batch svcA "ref" texts21 (ceil20 texts21.length) 0 .missing
        (.good [recA, recA]) tsA rfl).2 1 0 (by decide) (by decide) (by decide) recA (by decide)⟩

/-- C1: evaluating the retrieval at a chapter whose rows carry verse
markers with bodies.  The split of text_retriever.py line 127 emits
each matched delimiter as its own list element (it is not re-attached
to the piece that follows it), so the filter of line 135 keeps only
the bare markers: the returned pieces are `["TEXT 1", "TEXT 2"]`, the
verse body word `alpha` occurs in the cleaned non-markup row text but
in none of the returned pieces, and hence no concatenation of the
returned pieces can recover the retrieved rows' non-markup content. -/
theorem c1_verse_bodies_dropped :
    get_texts_from_chapter dbBug 5 2 = .ok ["TEXT 1".data, "TEXT 2".data]
      ∧ containsSub "alpha".data
          (List.intercalate [' '] ((chapterTextRows textsW 100 101).map removeMarkup)) = true
      ∧ (get_texts_pieces (chapterTextRows textsW 100 101)).all
          (fun piece => !containsSub "alpha".data piece) = true :=
  ⟨rfl, by decide, by decide⟩

theorem isWordChar_of_isDigit (c : Char) (h : c.isDigit = true) : isWordChar c = true := by
  simp [isWordChar, Char.isAlphanum, h]

theorem takeDigits_exact : ∀ ds rest : List Char, (∀ c ∈ ds, c.isDigit = true) →
    trailingBoundary rest = true → takeDigits (ds ++ rest) = (ds, rest) := by
  intro ds
  induction ds with
  | nil =>
    intro rest _ htb
    cases rest with
    | nil => rfl
    | cons c cs =>
      have hw : isWordChar c = false := by simpa [trailingBoundary] using htb
      have hd : c.isDigit = false := by
        cases hdig : c.isDigit
        · rfl
        · exact absurd (isWordChar_of_isDigit c hdig) (by simp [hw])
      simp [takeDigits, hd]
  | cons d ds ih =>
    intro rest hds htb
    have hd : d.isDigit = true := hds d (by simp)
    have hrec := ih rest (fun c hc => hds c (by simp [hc])) htb
    simp [takeDigits, hd, hrec]

/-- C6: marker detection of the split pattern
`\b(TEXT \d+|TEXTS \d+-\d+)\b`.  Negatively: no match ever starts
right after a word character (so `TEXT`/`TEXTS` embedded in a longer
word, as in `SUBTEXT 12`, never splits); `TEXTU...` (as in
`TEXTUAL 12`) never matches; `TEXT ` or `TEXTS ` followed by a
non-digit never matches.  Positively: at a word boundary, `TEXT `
followed by digits ending at a word boundary always matches exactly
the marker, and likewise `TEXTS ` with a digits-dash-digits range.
End to end: the blob `HEADER TEXTUAL 12 tail` produces no split point
while standalone `TEXT 12` and `TEXTS 3-5` each produce exactly one
delimiter piece. -/
theorem c6_marker_detection :
    (∀ cs, matchMarker true cs = none)
      ∧ (∀ (p : Bool) rest, matchMarker p ('T' :: 'E' :: 'X' :: 'T' :: 'U' :: rest) = none)
      ∧ (∀ (p : Bool) c rest, c.isDigit = false →
          matchMarker p ('T' :: 'E' :: 'X' :: 'T' :: ' ' :: c :: rest) = none)
      ∧ (∀ (p : Bool) c rest, c.isDigit = false →
          matchMarker p ('T' :: 'E' :: 'X' :: 'T' :: 'S' :: ' ' :: c :: rest) = none)
      ∧ (∀ (d : Char) ds rest, (∀ c ∈ d :: ds, c.isDigit = true) →
          trailingBoundary rest = true →
          matchMarker false ('T' :: 'E' :: 'X' :: 'T' :: ' ' :: (d :: ds ++ rest))
            = some ('T' :: 'E' :: 'X' :: 'T' :: ' ' :: d :: ds, rest))
      ∧ (∀ (d : Char) ds (e : Char) es rest,
          (∀ c ∈ d :: ds, c.isDigit = true) → (∀ c ∈ e :: es, c.isDigit = true) →
          trailingBoundary rest = true →
          matchMarker false
              ('T' :: 'E' :: 'X' :: 'T' :: 'S' :: ' ' :: (d :: ds ++ '-' :: (e :: es ++ rest)))
            = some ('T' :: 'E' :: 'X' :: 'T' :: 'S' :: ' ' :: (d :: ds ++ '-' :: e :: es), rest))
      ∧ pyReSplit "HEADER TEXTUAL 12 tail".data = ["HEADER TEXTUAL 12 tail".data]
      ∧ pyReSplit "see a TEXT 12 here".data = ["see a ".data, "TEXT 12".data, " here".data]
      ∧ pyReSplit "a TEXTS 3-5 b".data = ["a ".data, "TEXTS 3-5".data, " b".data] := by
  have h1 : ∀ cs, matchMarker true cs = none := fun cs => by simp [matchMarker]
  refine ⟨h1, ?_, ?_, ?_, ?_, ?_, by decide, by decide, by decide⟩
  · intro p rest
    cases p
    · rfl
    · exact h1 _
  · intro p c rest hc
    cases p
    · simp [matchMarker, takeDigits, hc]
    · exact h1 _
  · intro p c rest hc
    cases p
    · simp [matchMarker, takeDigits, hc]
    · exact h1 _
  · intro d ds rest hds htb
    have ht := takeDigits_exact (d :: ds) rest hds htb
    simp only [List.cons_append] at ht
    simp [matchMarker, ht, htb]
  · intro d ds e es rest hds hes htb
    have ht1 := takeDigits_exact (d :: ds) ('-' :: (e :: es ++ rest)) hds rfl
    have ht2 := takeDigits_exact (e :: es) rest hes htb
    simp only [List.cons_append] at ht1 ht2
    simp [matchMarker, ht1, ht2, htb]

/-- C6 witness: standalone `TEXT 1` and `TEXTS 3-5` at a word boundary
match exactly. -/
theorem c6_witness :
    matchMarker false "TEXT 1".data = some ("TEXT 1".data, [])
      ∧ matchMarker false "TEXTS 3-5".data = some ("TEXTS 3-5".data, []) :=
  ⟨c6_marker_detection.2.2.2.2.1 '1' [] [] (by decide) rfl,
   c6_marker_detection.2.2.2.2.2.1 '3' [] '5' [] [] (by decide) (by decide) rfl⟩

end ScriptureNames

